import Mathlib

/-!
Shallow embedding of the configuration-emission logic of the
space-invaders consumer `conanfile.py` (the `generate` method), together
with proofs of the behavioural properties of its toolchain-variable
emission.

The embedding models:
* a path as the list of characters of the Python string;
* `ResolvedDependencyMetadata` as the pair of `cpp_info.bindirs` and the
  resolved option mapping;
* the dependency mapping `self.dependencies` as an association list;
* the failure points of the Python code as explicit error values:
  `self.dependencies[name]` on an unknown name raises a lookup error
  (the missing-required-metadata `ConfigurationError` of the design),
  `options.<name>` on an unknown option raises, and `bindirs[0]` on an
  empty list raises an index error;
* `tc.cache_variables` as the ordered list of (key, value) assignments
  performed before the raise, so the partially populated state at a
  failure is observable.
-/

namespace SpaceInvaders

/-- A filesystem path, as the sequence of characters of the Python string. -/
abbrev Path := List Char

/-- Resolved metadata of one dependency: its `cpp_info.bindirs` and its
resolved options (each option modelled by its truth value, the only way
the source consumes an option). -/
structure DepMetadata where
  bindirs : List Path
  opts : List (String × Bool)
deriving Repr, DecidableEq

/-- The mapping `self.dependencies`, from dependency name to resolved
metadata, as an association list. -/
abbrev DepMap := List (String × DepMetadata)

/-- Lookup of `self.dependencies[name]`. -/
def lookupDep (deps : DepMap) (name : String) : Option DepMetadata :=
  (deps.find? (fun p => p.1 == name)).map (·.2)

/-- Lookup of a resolved option on one dependency's metadata. -/
def lookupOpt (md : DepMetadata) (o : String) : Option Bool :=
  (md.opts.find? (fun p => p.1 == o)).map (·.2)

/-- The ways the `generate` method can raise.
`missingDependency` is the lookup failure on `self.dependencies[name]`
(the missing-required-metadata `ConfigurationError` of the design);
`missingOption` is the attribute failure on `options.<opt>`;
`indexError` is `bindirs[0]` applied to an empty list. -/
inductive ConanError where
  | missingDependency (name : String)
  | missingOption (dep opt : String)
  | indexError (dep : String)
deriving Repr, DecidableEq

/-- `.replace("\\", "/")` on a path: the pattern is a single character,
so the replacement is a character-wise map. -/
def normalizePath (p : Path) : Path :=
  p.map (fun c => if c = '\\' then '/' else c)

/-- `self.dependencies[name].cpp_info.bindirs[0].replace("\\", "/")`. -/
def getBinDir (deps : DepMap) (name : String) : Except ConanError Path :=
  match lookupDep deps name with
  | none => .error (.missingDependency name)
  | some md =>
    match md.bindirs with
    | [] => .error (.indexError name)
    | p :: _ => .ok (normalizePath p)

/-- `self.dependencies[dep].options.<opt>`. -/
def getOption (deps : DepMap) (dep opt : String) : Except ConanError Bool :=
  match lookupDep deps dep with
  | none => .error (.missingDependency dep)
  | some md =>
    match lookupOpt md opt with
    | none => .error (.missingOption dep opt)
    | some b => .ok b

/-- The emitted cache variables, in assignment order. -/
abbrev Vars := List (String × Path)

/-- One conditional assignment
`if cond: tc.cache_variables[key] = self.dependencies[dep]...bindirs[0].replace(...)`:
the bindir is read (and may raise) only when the condition is true. -/
def condEmit (deps : DepMap) (dep key : String) (cond : Bool) (vars : Vars) :
    Vars × Option ConanError :=
  if cond then
    match getBinDir deps dep with
    | .error e => (vars, some e)
    | .ok d => (vars ++ [(key, d)], none)
  else (vars, none)

/-- The guard of line 65,
`self.settings.os == "Windows" and self.dependencies["mach_emu"].options.with_zlib and self.dependencies["zlib"].options.shared`,
with Python's left-to-right short-circuit evaluation. -/
def zlibGuard (os : String) (deps : DepMap) : Except ConanError Bool :=
  if os = "Windows" then
    match getOption deps "mach_emu" "with_zlib" with
    | .error e => .error e
    | .ok wz =>
      if wz then getOption deps "zlib" "shared" else .ok false
  else .ok false

/-- Sequencing of the emission statements: once a statement has raised,
the following statements do not run and the variables assigned so far
are kept. -/
def andStep (s : Vars × Option ConanError)
    (f : Vars → Vars × Option ConanError) : Vars × Option ConanError :=
  match s with
  | (vars, some e) => (vars, some e)
  | (vars, none) => f vars

/-- Line 57: the unconditional assignment of `machEmuBinDir`. -/
def emitMach (deps : DepMap) : Vars × Option ConanError :=
  match getBinDir deps "mach_emu" with
  | .error e => ([], some e)
  | .ok d => ([("machEmuBinDir", d)], none)

/-- Lines 59-60 and 62-63: `if self.dependencies[dep].options.shared:`
followed by the conditional assignment of the dependency's bindir. -/
def emitShared (deps : DepMap) (dep key : String) (vars : Vars) :
    Vars × Option ConanError :=
  match getOption deps dep "shared" with
  | .error e => (vars, some e)
  | .ok b => condEmit deps dep key b vars

/-- Lines 65-66: the guarded assignment of `zlibBinDir`. -/
def emitZlib (os : String) (deps : DepMap) (vars : Vars) :
    Vars × Option ConanError :=
  match zlibGuard os deps with
  | .error e => (vars, some e)
  | .ok z => condEmit deps "zlib" "zlibBinDir" z vars

/-- The body of `generate` (lines 57-66): the sequence of cache-variable
assignments, statement by statement, stopping at the first raise.  The
result is the list of assignments performed together with the raised
error, if any. -/
def generateTrace (os : String) (deps : DepMap) : Vars × Option ConanError :=
  andStep (andStep (andStep (emitMach deps)
      (emitShared deps "sdl" "sdlBinDir"))
      (emitShared deps "sdl_mixer" "sdlMixerBinDir"))
    (emitZlib os deps)

/-- The observable outcome of the configuration pass: on success the
emitted variable sequence (written out by `tc.generate()`), on a raise
the error (nothing is written, since line 68 is never reached). -/
def generate (os : String) (deps : DepMap) : Except ConanError Vars :=
  match generateTrace os deps with
  | (vars, none) => .ok vars
  | (_, some e) => .error e

/-- Under well-formed metadata (all four dependencies present, the
consumed options present, non-empty bindir lists) the trace succeeds and
equals an explicit conditional list. -/
theorem generateTrace_wellformed
    (os : String) (deps : DepMap)
    (me sd mx zb : DepMetadata)
    (pme psd pmx pzb : Path) (rme rsd rmx rzb : List Path)
    (wz ss ms zs : Bool)
    (hme : lookupDep deps "mach_emu" = some me)
    (hmeb : me.bindirs = pme :: rme)
    (hwz : lookupOpt me "with_zlib" = some wz)
    (hsd : lookupDep deps "sdl" = some sd)
    (hsdb : sd.bindirs = psd :: rsd)
    (hss : lookupOpt sd "shared" = some ss)
    (hmx : lookupDep deps "sdl_mixer" = some mx)
    (hmxb : mx.bindirs = pmx :: rmx)
    (hms : lookupOpt mx "shared" = some ms)
    (hzb : lookupDep deps "zlib" = some zb)
    (hzbb : zb.bindirs = pzb :: rzb)
    (hzs : lookupOpt zb "shared" = some zs) :
    generateTrace os deps =
      ([("machEmuBinDir", normalizePath pme)]
        ++ (if ss then [("sdlBinDir", normalizePath psd)] else [])
        ++ (if ms then [("sdlMixerBinDir", normalizePath pmx)] else [])
        ++ (if os = "Windows" then
              (if wz then (if zs then [("zlibBinDir", normalizePath pzb)] else [])
               else [])
            else []),
       none) := by
  by_cases hos : os = "Windows" <;>
    cases ss <;> cases ms <;> cases wz <;> cases zs <;>
      simp [generateTrace, andStep, emitMach, emitShared, emitZlib,
        condEmit, zlibGuard, getBinDir, getOption,
        hme, hmeb, hwz, hsd, hsdb, hss, hmx, hmxb, hms, hzb, hzbb, hzs, hos]

/-- A well-formed dependency mapping used to instantiate the
conditional theorems: every dependency present, every consumed option
present, every bindir list non-empty. -/
def wfDeps : DepMap :=
  [("mach_emu", ⟨[['/', 'm']], [("with_zlib", true)]⟩),
   ("sdl", ⟨[['/', 's']], [("shared", true)]⟩),
   ("sdl_mixer", ⟨[['/', 'x']], [("shared", true)]⟩),
   ("zlib", ⟨[['/', 'z']], [("shared", true)]⟩)]

/-- Claim C1: with well-formed metadata, the `zlibBinDir` variable is
emitted if and only if the operating system is `"Windows"`, the
emulation core's `with_zlib` option is true, and zlib's `shared` option
is true; in the other seven combinations of the three booleans no
`zlibBinDir` entry appears. -/
theorem zlibBinDir_iff_triple
    (os : String) (deps : DepMap)
    (me sd mx zb : DepMetadata)
    (pme psd pmx pzb : Path) (rme rsd rmx rzb : List Path)
    (wz ss ms zs : Bool)
    (hme : lookupDep deps "mach_emu" = some me)
    (hmeb : me.bindirs = pme :: rme)
    (hwz : lookupOpt me "with_zlib" = some wz)
    (hsd : lookupDep deps "sdl" = some sd)
    (hsdb : sd.bindirs = psd :: rsd)
    (hss : lookupOpt sd "shared" = some ss)
    (hmx : lookupDep deps "sdl_mixer" = some mx)
    (hmxb : mx.bindirs = pmx :: rmx)
    (hms : lookupOpt mx "shared" = some ms)
    (hzb : lookupDep deps "zlib" = some zb)
    (hzbb : zb.bindirs = pzb :: rzb)
    (hzs : lookupOpt zb "shared" = some zs) :
    (generateTrace os deps).2 = none ∧
      ("zlibBinDir" ∈ (generateTrace os deps).1.map Prod.fst ↔
        (os = "Windows" ∧ wz = true ∧ zs = true)) := by
  have h := generateTrace_wellformed os deps me sd mx zb pme psd pmx pzb
    rme rsd rmx rzb wz ss ms zs hme hmeb hwz hsd hsdb hss hmx hmxb hms
    hzb hzbb hzs
  rw [h]
  refine ⟨rfl, ?_⟩
  by_cases hos : os = "Windows" <;>
    cases wz <;> cases zs <;> cases ss <;> cases ms <;> simp [hos]

/-- Instantiation of `zlibBinDir_iff_triple` on a concrete well-formed
mapping with all three conditions true. -/
theorem zlibBinDir_iff_triple_witness :
    (generateTrace "Windows" wfDeps).2 = none ∧
      ("zlibBinDir" ∈ (generateTrace "Windows" wfDeps).1.map Prod.fst ↔
        ("Windows" = "Windows" ∧ true = true ∧ true = true)) :=
  zlibBinDir_iff_triple "Windows" wfDeps _ _ _ _ _ _ _ _ _ _ _ _
    true true true true rfl rfl rfl rfl rfl rfl rfl rfl rfl rfl rfl rfl

/-- Claim C2: with well-formed metadata, `sdlBinDir` is emitted exactly
when sdl's `shared` option is true, and `sdlMixerBinDir` exactly when
sdl_mixer's `shared` option is true, each independently. -/
theorem multimedia_bindir_iff_shared
    (os : String) (deps : DepMap)
    (me sd mx zb : DepMetadata)
    (pme psd pmx pzb : Path) (rme rsd rmx rzb : List Path)
    (wz ss ms zs : Bool)
    (hme : lookupDep deps "mach_emu" = some me)
    (hmeb : me.bindirs = pme :: rme)
    (hwz : lookupOpt me "with_zlib" = some wz)
    (hsd : lookupDep deps "sdl" = some sd)
    (hsdb : sd.bindirs = psd :: rsd)
    (hss : lookupOpt sd "shared" = some ss)
    (hmx : lookupDep deps "sdl_mixer" = some mx)
    (hmxb : mx.bindirs = pmx :: rmx)
    (hms : lookupOpt mx "shared" = some ms)
    (hzb : lookupDep deps "zlib" = some zb)
    (hzbb : zb.bindirs = pzb :: rzb)
    (hzs : lookupOpt zb "shared" = some zs) :
    (generateTrace os deps).2 = none ∧
      ("sdlBinDir" ∈ (generateTrace os deps).1.map Prod.fst ↔ ss = true) ∧
      ("sdlMixerBinDir" ∈ (generateTrace os deps).1.map Prod.fst ↔ ms = true) := by
  have h := generateTrace_wellformed os deps me sd mx zb pme psd pmx pzb
    rme rsd rmx rzb wz ss ms zs hme hmeb hwz hsd hsdb hss hmx hmxb hms
    hzb hzbb hzs
  rw [h]
  refine ⟨rfl, ?_, ?_⟩ <;>
    (by_cases hos : os = "Windows" <;>
      cases wz <;> cases zs <;> cases ss <;> cases ms <;> simp [hos])

/-- Instantiation of `multimedia_bindir_iff_shared` on a concrete
well-formed mapping with both multimedia dependencies shared. -/
theorem multimedia_bindir_iff_shared_witness :
    (generateTrace "Linux" wfDeps).2 = none ∧
      ("sdlBinDir" ∈ (generateTrace "Linux" wfDeps).1.map Prod.fst ↔ true = true) ∧
      ("sdlMixerBinDir" ∈ (generateTrace "Linux" wfDeps).1.map Prod.fst ↔ true = true) :=
  multimedia_bindir_iff_shared "Linux" wfDeps _ _ _ _ _ _ _ _ _ _ _ _
    true true true true rfl rfl rfl rfl rfl rfl rfl rfl rfl rfl rfl rfl

/-- Claim C3: when the emulation-core metadata is missing, the pass
raises the missing-required-metadata error and the emitted variable
list is empty. -/
theorem missing_mach_emu_raises (os : String) (deps : DepMap)
    (h : lookupDep deps "mach_emu" = none) :
    generateTrace os deps = ([], some (ConanError.missingDependency "mach_emu")) := by
  simp [generateTrace, andStep, emitMach, getBinDir, h]

/-- Instantiation of `missing_mach_emu_raises` on the empty mapping. -/
theorem missing_mach_emu_raises_witness :
    generateTrace "Linux" [] = ([], some (ConanError.missingDependency "mach_emu")) :=
  missing_mach_emu_raises "Linux" [] rfl

/-- When the emulation core, sdl and sdl_mixer are well formed and the
zlib guard evaluates to false, the trace succeeds with the first three
conditional entries, independently of any zlib metadata. -/
theorem generateTrace_guard_false
    (os : String) (deps : DepMap)
    (me sd mx : DepMetadata)
    (pme psd pmx : Path) (rme rsd rmx : List Path)
    (ss ms : Bool)
    (hme : lookupDep deps "mach_emu" = some me)
    (hmeb : me.bindirs = pme :: rme)
    (hsd : lookupDep deps "sdl" = some sd)
    (hsdb : sd.bindirs = psd :: rsd)
    (hss : lookupOpt sd "shared" = some ss)
    (hmx : lookupDep deps "sdl_mixer" = some mx)
    (hmxb : mx.bindirs = pmx :: rmx)
    (hms : lookupOpt mx "shared" = some ms)
    (hguard : zlibGuard os deps = Except.ok false) :
    generateTrace os deps =
      ([("machEmuBinDir", normalizePath pme)]
        ++ (if ss then [("sdlBinDir", normalizePath psd)] else [])
        ++ (if ms then [("sdlMixerBinDir", normalizePath pmx)] else []),
       none) := by
  cases ss <;> cases ms <;>
    simp [generateTrace, andStep, emitMach, emitShared, emitZlib,
      condEmit, getBinDir, getOption,
      hme, hmeb, hsd, hsdb, hss, hmx, hmxb, hms, hguard]

/-- Claim C4 counterexample: the emulation-core metadata is present but
the sdl metadata is absent, and the pass raises instead of completing
normally (the code dereferences the sdl entry unconditionally). -/
theorem missing_sdl_fails_cex :
    generate "Linux" [("mach_emu", ⟨[['/', 'm']], [("with_zlib", false)]⟩)] =
      Except.error (ConanError.missingDependency "sdl") := rfl

/-- Claim C4 amended: with the emulation core, sdl and sdl_mixer well
formed, absence of the compression dependency is tolerated exactly when
the guard short-circuits (non-Windows, or `with_zlib` false): the pass
completes and no `zlibBinDir` entry is emitted.  Absence of a
multimedia dependency, by contrast, raises (see the counterexample). -/
theorem absent_zlib_tolerated
    (os : String) (deps : DepMap)
    (me sd mx : DepMetadata)
    (pme psd pmx : Path) (rme rsd rmx : List Path)
    (ss ms : Bool)
    (hme : lookupDep deps "mach_emu" = some me)
    (hmeb : me.bindirs = pme :: rme)
    (hsd : lookupDep deps "sdl" = some sd)
    (hsdb : sd.bindirs = psd :: rsd)
    (hss : lookupOpt sd "shared" = some ss)
    (hmx : lookupDep deps "sdl_mixer" = some mx)
    (hmxb : mx.bindirs = pmx :: rmx)
    (hms : lookupOpt mx "shared" = some ms)
    (_hzlibAbsent : lookupDep deps "zlib" = none)
    (hsc : os ≠ "Windows" ∨ lookupOpt me "with_zlib" = some false) :
    (generateTrace os deps).2 = none ∧
      "zlibBinDir" ∉ (generateTrace os deps).1.map Prod.fst := by
  have hguard : zlibGuard os deps = Except.ok false := by
    rcases hsc with hos | hwz
    · simp [zlibGuard, hos]
    · by_cases hos : os = "Windows" <;>
        simp [zlibGuard, getOption, hme, hwz, hos]
  rw [generateTrace_guard_false os deps me sd mx pme psd pmx rme rsd rmx
    ss ms hme hmeb hsd hsdb hss hmx hmxb hms hguard]
  refine ⟨rfl, ?_⟩
  cases ss <;> cases ms <;> simp

/-- Instantiation of `absent_zlib_tolerated`: zlib metadata entirely
absent on a non-Windows host, and the pass still succeeds. -/
theorem absent_zlib_tolerated_witness :
    (generateTrace "Linux"
        [("mach_emu", ⟨[['/', 'm']], [("with_zlib", true)]⟩),
         ("sdl", ⟨[['/', 's']], [("shared", true)]⟩),
         ("sdl_mixer", ⟨[['/', 'x']], [("shared", true)]⟩)]).2 = none ∧
      "zlibBinDir" ∉ (generateTrace "Linux"
        [("mach_emu", ⟨[['/', 'm']], [("with_zlib", true)]⟩),
         ("sdl", ⟨[['/', 's']], [("shared", true)]⟩),
         ("sdl_mixer", ⟨[['/', 'x']], [("shared", true)]⟩)]).1.map Prod.fst :=
  absent_zlib_tolerated "Linux" _ _ _ _ _ _ _ _ _ _ true true
    rfl rfl rfl rfl rfl rfl rfl rfl rfl (Or.inl (by decide))

/-- `normalizePath` leaves no backslash in its output. -/
theorem normalizePath_no_backslash (p : Path) : '\\' ∉ normalizePath p := by
  unfold normalizePath
  intro h
  rcases List.mem_map.mp h with ⟨c, _, hc⟩
  by_cases h' : c = '\\' <;> simp [h'] at hc

/-- Any bindir successfully produced by `getBinDir` is normalized. -/
theorem getBinDir_no_backslash {deps : DepMap} {n : String} {d : Path}
    (h : getBinDir deps n = Except.ok d) : '\\' ∉ d := by
  cases hl : lookupDep deps n with
  | none => simp [getBinDir, hl] at h
  | some md =>
    cases hb : md.bindirs with
    | nil => simp [getBinDir, hl, hb] at h
    | cons p r =>
      simp only [getBinDir, hl, hb, Except.ok.injEq] at h
      rw [← h]
      exact normalizePath_no_backslash p

/-- `condEmit` preserves the no-backslash invariant on the variable list. -/
theorem condEmit_no_backslash (deps : DepMap) (dep key : String)
    (c : Bool) (vars : Vars)
    (hv : ∀ kv ∈ vars, '\\' ∉ kv.2) :
    ∀ kv ∈ (condEmit deps dep key c vars).1, '\\' ∉ kv.2 := by
  cases c with
  | false => simpa [condEmit] using hv
  | true =>
    cases hg : getBinDir deps dep with
    | error e => simpa [condEmit, hg] using hv
    | ok d =>
      rintro ⟨a, b⟩ hkv
      simp [condEmit, hg] at hkv
      show '\\' ∉ b
      rcases hkv with h | h
      · exact hv (a, b) h
      · rw [h.2]
        exact getBinDir_no_backslash hg

/-- `andStep` preserves the no-backslash invariant. -/
theorem andStep_no_backslash (s : Vars × Option ConanError)
    (f : Vars → Vars × Option ConanError)
    (hs : ∀ kv ∈ s.1, '\\' ∉ kv.2)
    (hf : ∀ vars, (∀ kv ∈ vars, '\\' ∉ kv.2) → ∀ kv ∈ (f vars).1, '\\' ∉ kv.2) :
    ∀ kv ∈ (andStep s f).1, '\\' ∉ kv.2 := by
  obtain ⟨vars, e⟩ := s
  cases e with
  | none => simpa [andStep] using hf vars (by simpa using hs)
  | some err => simpa [andStep] using hs

/-- The `machEmuBinDir` assignment only produces normalized values. -/
theorem emitMach_no_backslash (deps : DepMap) :
    ∀ kv ∈ (emitMach deps).1, '\\' ∉ kv.2 := by
  cases h : getBinDir deps "mach_emu" with
  | error e => simp [emitMach, h]
  | ok d =>
    rintro ⟨a, b⟩ hkv
    simp [emitMach, h] at hkv
    show '\\' ∉ b
    rw [hkv.2]
    exact getBinDir_no_backslash h

/-- The conditional multimedia assignments preserve the invariant. -/
theorem emitShared_no_backslash (deps : DepMap) (dep key : String) (vars : Vars)
    (hv : ∀ kv ∈ vars, '\\' ∉ kv.2) :
    ∀ kv ∈ (emitShared deps dep key vars).1, '\\' ∉ kv.2 := by
  cases h : getOption deps dep "shared" with
  | error e => simpa [emitShared, h] using hv
  | ok b => simpa [emitShared, h] using condEmit_no_backslash deps dep key b vars hv

/-- The guarded zlib assignment preserves the invariant. -/
theorem emitZlib_no_backslash (os : String) (deps : DepMap) (vars : Vars)
    (hv : ∀ kv ∈ vars, '\\' ∉ kv.2) :
    ∀ kv ∈ (emitZlib os deps vars).1, '\\' ∉ kv.2 := by
  cases h : zlibGuard os deps with
  | error e => simpa [emitZlib, h] using hv
  | ok z => simpa [emitZlib, h] using condEmit_no_backslash deps "zlib" "zlibBinDir" z vars hv

/-- Every variable the trace ever assigns carries a normalized value:
no backslash survives, on any input and on either outcome. -/
theorem generateTrace_no_backslash (os : String) (deps : DepMap) :
    ∀ kv ∈ (generateTrace os deps).1, '\\' ∉ kv.2 := by
  unfold generateTrace
  exact andStep_no_backslash _ _
    (andStep_no_backslash _ _
      (andStep_no_backslash _ _ (emitMach_no_backslash deps)
        (fun vars hv => emitShared_no_backslash deps "sdl" "sdlBinDir" vars hv))
      (fun vars hv => emitShared_no_backslash deps "sdl_mixer" "sdlMixerBinDir" vars hv))
    (fun vars hv => emitZlib_no_backslash os deps vars hv)

/-- Inversion: a successful `generate` returns exactly the trace list,
and the trace raised nothing. -/
theorem generate_ok_inv {os : String} {deps : DepMap} {vars : Vars}
    (hok : generate os deps = Except.ok vars) :
    (generateTrace os deps).1 = vars ∧ (generateTrace os deps).2 = none := by
  unfold generate at hok
  rcases ht : generateTrace os deps with ⟨vs, e⟩
  rw [ht] at hok
  cases e with
  | none =>
    simp only [Except.ok.injEq] at hok
    simp [hok]
  | some err => simp at hok

/-- Claim C5: every value in a successfully emitted variable sequence
contains no backslash character. -/
theorem emitted_values_no_backslash
    (os : String) (deps : DepMap) (vars : Vars) (k : String) (v : Path)
    (hok : generate os deps = Except.ok vars)
    (hmem : (k, v) ∈ vars) : '\\' ∉ v := by
  have hvars : (generateTrace os deps).1 = vars := (generate_ok_inv hok).1
  exact generateTrace_no_backslash os deps (k, v) (hvars ▸ hmem)

/-- Instantiation of `emitted_values_no_backslash` on a mapping whose
emulation-core bindir uses Windows-style separators. -/
theorem emitted_values_no_backslash_witness :
    '\\' ∉ ['C', ':', '/', 'm'] :=
  emitted_values_no_backslash "Linux"
    [("mach_emu", ⟨[['C', ':', '\\', 'm']], []⟩),
     ("sdl", ⟨[], [("shared", false)]⟩),
     ("sdl_mixer", ⟨[], [("shared", false)]⟩)]
    [("machEmuBinDir", ['C', ':', '/', 'm'])]
    "machEmuBinDir" ['C', ':', '/', 'm'] rfl (by simp)

/-- `normalizePath` preserves non-emptiness. -/
theorem normalizePath_ne_nil {p : Path} (h : p ≠ []) : normalizePath p ≠ [] := by
  unfold normalizePath
  simpa using h

/-- Claim C6 counterexample: the code does not reject an empty bindir
string, so a key can be emitted with an empty value. -/
theorem empty_value_emitted_cex :
    generate "Linux"
      [("mach_emu", ⟨[[]], []⟩),
       ("sdl", ⟨[], [("shared", false)]⟩),
       ("sdl_mixer", ⟨[], [("shared", false)]⟩)] =
      Except.ok [("machEmuBinDir", [])] := rfl

/-- Claim C6 amended: on a successful well-formed run each logical key
appears at most once, and each emitted value is non-empty provided the
corresponding primary binary directory is a non-empty string (the code
copies the directory verbatim after separator normalization and never
checks for emptiness itself). -/
theorem keys_unique_values_nonempty
    (os : String) (deps : DepMap)
    (me sd mx zb : DepMetadata)
    (pme psd pmx pzb : Path) (rme rsd rmx rzb : List Path)
    (wz ss ms zs : Bool)
    (hme : lookupDep deps "mach_emu" = some me)
    (hmeb : me.bindirs = pme :: rme)
    (hwz : lookupOpt me "with_zlib" = some wz)
    (hsd : lookupDep deps "sdl" = some sd)
    (hsdb : sd.bindirs = psd :: rsd)
    (hss : lookupOpt sd "shared" = some ss)
    (hmx : lookupDep deps "sdl_mixer" = some mx)
    (hmxb : mx.bindirs = pmx :: rmx)
    (hms : lookupOpt mx "shared" = some ms)
    (hzb : lookupDep deps "zlib" = some zb)
    (hzbb : zb.bindirs = pzb :: rzb)
    (hzs : lookupOpt zb "shared" = some zs)
    (hpme : pme ≠ []) (hpsd : psd ≠ []) (hpmx : pmx ≠ []) (hpzb : pzb ≠ []) :
    (generateTrace os deps).2 = none ∧
      ((generateTrace os deps).1.map Prod.fst).Nodup ∧
      ∀ kv ∈ (generateTrace os deps).1, kv.2 ≠ [] := by
  rw [generateTrace_wellformed os deps me sd mx zb pme psd pmx pzb
    rme rsd rmx rzb wz ss ms zs hme hmeb hwz hsd hsdb hss hmx hmxb hms
    hzb hzbb hzs]
  refine ⟨rfl, ?_, ?_⟩ <;>
    (by_cases hos : os = "Windows" <;>
      cases wz <;> cases zs <;> cases ss <;> cases ms <;>
        simp [hos, normalizePath_ne_nil hpme, normalizePath_ne_nil hpsd,
          normalizePath_ne_nil hpmx, normalizePath_ne_nil hpzb])

/-- Instantiation of `keys_unique_values_nonempty` on a concrete
well-formed mapping with non-empty directories. -/
theorem keys_unique_values_nonempty_witness :
    (generateTrace "Windows" wfDeps).2 = none ∧
      ((generateTrace "Windows" wfDeps).1.map Prod.fst).Nodup ∧
      ∀ kv ∈ (generateTrace "Windows" wfDeps).1, kv.2 ≠ [] :=
  keys_unique_values_nonempty "Windows" wfDeps _ _ _ _ _ _ _ _ _ _ _ _
    true true true true rfl rfl rfl rfl rfl rfl rfl rfl rfl rfl rfl rfl
    (by decide) (by decide) (by decide) (by decide)

/-- `condEmit` only ever appends to the variable list. -/
theorem condEmit_fst_append (deps : DepMap) (dep key : String)
    (c : Bool) (vars : Vars) :
    ∃ l, (condEmit deps dep key c vars).1 = vars ++ l := by
  cases c with
  | false => exact ⟨[], by simp [condEmit]⟩
  | true =>
    cases hg : getBinDir deps dep with
    | error e => exact ⟨[], by simp [condEmit, hg]⟩
    | ok d => exact ⟨[(key, d)], by simp [condEmit, hg]⟩

/-- `emitShared` only ever appends to the variable list. -/
theorem emitShared_fst_append (deps : DepMap) (dep key : String) (vars : Vars) :
    ∃ l, (emitShared deps dep key vars).1 = vars ++ l := by
  cases h : getOption deps dep "shared" with
  | error e => exact ⟨[], by simp [emitShared, h]⟩
  | ok b =>
    obtain ⟨l, hl⟩ := condEmit_fst_append deps dep key b vars
    exact ⟨l, by simp [emitShared, h, hl]⟩

/-- `emitZlib` only ever appends to the variable list. -/
theorem emitZlib_fst_append (os : String) (deps : DepMap) (vars : Vars) :
    ∃ l, (emitZlib os deps vars).1 = vars ++ l := by
  cases h : zlibGuard os deps with
  | error e => exact ⟨[], by simp [emitZlib, h]⟩
  | ok z =>
    obtain ⟨l, hl⟩ := condEmit_fst_append deps "zlib" "zlibBinDir" z vars
    exact ⟨l, by simp [emitZlib, h, hl]⟩

/-- `andStep` with an appending continuation only extends the list. -/
theorem andStep_fst_append (s : Vars × Option ConanError)
    (f : Vars → Vars × Option ConanError)
    (hf : ∀ vars, ∃ l, (f vars).1 = vars ++ l) :
    ∃ l, (andStep s f).1 = s.1 ++ l := by
  obtain ⟨vars, e⟩ := s
  cases e with
  | none =>
    obtain ⟨l, hl⟩ := hf vars
    exact ⟨l, by simpa [andStep] using hl⟩
  | some err => exact ⟨[], by simp [andStep]⟩

/-- The full trace extends the initial `machEmuBinDir` assignment. -/
theorem generateTrace_fst_append (os : String) (deps : DepMap) :
    ∃ l, (generateTrace os deps).1 = (emitMach deps).1 ++ l := by
  obtain ⟨l₁, h₁⟩ := andStep_fst_append (emitMach deps)
    (emitShared deps "sdl" "sdlBinDir")
    (emitShared_fst_append deps "sdl" "sdlBinDir")
  obtain ⟨l₂, h₂⟩ := andStep_fst_append
    (andStep (emitMach deps) (emitShared deps "sdl" "sdlBinDir"))
    (emitShared deps "sdl_mixer" "sdlMixerBinDir")
    (emitShared_fst_append deps "sdl_mixer" "sdlMixerBinDir")
  obtain ⟨l₃, h₃⟩ := andStep_fst_append
    (andStep (andStep (emitMach deps) (emitShared deps "sdl" "sdlBinDir"))
      (emitShared deps "sdl_mixer" "sdlMixerBinDir"))
    (emitZlib os deps)
    (emitZlib_fst_append os deps)
  refine ⟨l₁ ++ l₂ ++ l₃, ?_⟩
  unfold generateTrace
  rw [h₃, h₂, h₁]
  simp [List.append_assoc]

/-- Claim C7: on every successful run the first emitted variable is
`machEmuBinDir`, valued at the (normalized) first entry of the emulation
core's binary-directory sequence. -/
theorem machEmuBinDir_always_first
    (os : String) (deps : DepMap) (vars : Vars)
    (md : DepMetadata) (p : Path) (rest : List Path)
    (hok : generate os deps = Except.ok vars)
    (hme : lookupDep deps "mach_emu" = some md)
    (hmeb : md.bindirs = p :: rest) :
    vars.head? = some ("machEmuBinDir", normalizePath p) := by
  have hmach : emitMach deps = ([("machEmuBinDir", normalizePath p)], none) := by
    simp [emitMach, getBinDir, hme, hmeb]
  obtain ⟨l, hl⟩ := generateTrace_fst_append os deps
  have hvars : (generateTrace os deps).1 = vars := (generate_ok_inv hok).1
  rw [hvars, hmach] at hl
  rw [hl]
  rfl

/-- Instantiation of `machEmuBinDir_always_first` on a concrete run. -/
theorem machEmuBinDir_always_first_witness :
    ([(("machEmuBinDir" : String), ['/', 'm']),
      ("sdlBinDir", ['/', 's']),
      ("sdlMixerBinDir", ['/', 'x'])] : Vars).head? =
      some ("machEmuBinDir", normalizePath ['/', 'm']) :=
  machEmuBinDir_always_first "Linux" wfDeps _ _ ['/', 'm'] [] rfl rfl rfl

/-- Claim C8: the emitter is a pure function of the platform fact and
the resolved dependency mapping — two runs on identical inputs produce
identical outcomes (same keys, same values, same order). -/
theorem generate_deterministic (os₁ os₂ : String) (d₁ d₂ : DepMap)
    (hos : os₁ = os₂) (hd : d₁ = d₂) :
    generate os₁ d₁ = generate os₂ d₂ := by
  rw [hos, hd]

/-- Instantiation of `generate_deterministic` on two identical runs. -/
theorem generate_deterministic_witness :
    generate "Windows" wfDeps = generate "Windows" wfDeps :=
  generate_deterministic "Windows" "Windows" wfDeps wfDeps rfl rfl

/-- Claim C9 counterexample: the mandatory emulation core has an empty
binary-directory list, and the pass fails with the index error of
`bindirs[0]`, not with the missing-metadata error. -/
theorem empty_bindirs_index_error_cex :
    generate "Linux" [("mach_emu", ⟨[], []⟩)] =
      Except.error (ConanError.indexError "mach_emu") := rfl

/-- Claim C9 amended: for each of the four dependencies whose variable
would be emitted — the mandatory emulation core; sdl or sdl_mixer when
its `shared` option is true; zlib when the full line-65 guard holds —
an empty binary-directory list makes the pass fail with the
index-out-of-range error of `bindirs[0]` naming that dependency, never
emitting that dependency's variable, rather than with the
missing-required-metadata `ConfigurationError`.  Each case assumes the
preceding statements succeed, so that the named dependency is the one
that fails. -/
theorem would_emit_empty_bindirs_index_error
    (os : String) (deps : DepMap)
    (me sd mx zb : DepMetadata)
    (wz ss ms zs : Bool)
    (hme : lookupDep deps "mach_emu" = some me)
    (hwz : lookupOpt me "with_zlib" = some wz)
    (hsd : lookupDep deps "sdl" = some sd)
    (hss : lookupOpt sd "shared" = some ss)
    (hmx : lookupDep deps "sdl_mixer" = some mx)
    (hms : lookupOpt mx "shared" = some ms)
    (hzb : lookupDep deps "zlib" = some zb)
    (hzs : lookupOpt zb "shared" = some zs) :
    (me.bindirs = [] →
      (generateTrace os deps).2 = some (ConanError.indexError "mach_emu") ∧
        "machEmuBinDir" ∉ (generateTrace os deps).1.map Prod.fst) ∧
    (me.bindirs ≠ [] → ss = true → sd.bindirs = [] →
      (generateTrace os deps).2 = some (ConanError.indexError "sdl") ∧
        "sdlBinDir" ∉ (generateTrace os deps).1.map Prod.fst) ∧
    (me.bindirs ≠ [] → (ss = true → sd.bindirs ≠ []) → ms = true →
      mx.bindirs = [] →
      (generateTrace os deps).2 = some (ConanError.indexError "sdl_mixer") ∧
        "sdlMixerBinDir" ∉ (generateTrace os deps).1.map Prod.fst) ∧
    (me.bindirs ≠ [] → (ss = true → sd.bindirs ≠ []) →
      (ms = true → mx.bindirs ≠ []) →
      os = "Windows" → wz = true → zs = true → zb.bindirs = [] →
      (generateTrace os deps).2 = some (ConanError.indexError "zlib") ∧
        "zlibBinDir" ∉ (generateTrace os deps).1.map Prod.fst) := by
  refine ⟨?_, ?_, ?_, ?_⟩
  · intro hmeb
    constructor <;>
      simp [generateTrace, andStep, emitMach, getBinDir, hme, hmeb]
  · intro hmene hss' hsdb
    obtain ⟨pme, rme, hmeb⟩ := List.exists_cons_of_ne_nil hmene
    constructor <;>
      simp [generateTrace, andStep, emitMach, emitShared, emitZlib,
        condEmit, zlibGuard, getBinDir, getOption,
        hme, hmeb, hsd, hss, hss', hsdb]
  · intro hmene hsdok hms' hmxb
    obtain ⟨pme, rme, hmeb⟩ := List.exists_cons_of_ne_nil hmene
    cases ss with
    | false =>
      constructor <;>
        simp [generateTrace, andStep, emitMach, emitShared, emitZlib,
          condEmit, zlibGuard, getBinDir, getOption,
          hme, hmeb, hsd, hss, hmx, hms, hms', hmxb]
    | true =>
      obtain ⟨psd, rsd, hsdb⟩ := List.exists_cons_of_ne_nil (hsdok rfl)
      constructor <;>
        simp [generateTrace, andStep, emitMach, emitShared, emitZlib,
          condEmit, zlibGuard, getBinDir, getOption,
          hme, hmeb, hsd, hss, hsdb, hmx, hms, hms', hmxb]
  · intro hmene hsdok hmxok hos' hwz' hzs' hzbb
    obtain ⟨pme, rme, hmeb⟩ := List.exists_cons_of_ne_nil hmene
    cases ss with
    | false =>
      cases ms with
      | false =>
        constructor <;>
          simp [generateTrace, andStep, emitMach, emitShared, emitZlib,
            condEmit, zlibGuard, getBinDir, getOption, hme, hmeb, hwz,
            hsd, hss, hmx, hms, hzb, hzs, hzbb, hos', hwz', hzs']
      | true =>
        obtain ⟨pmx, rmx, hmxb⟩ := List.exists_cons_of_ne_nil (hmxok rfl)
        constructor <;>
          simp [generateTrace, andStep, emitMach, emitShared, emitZlib,
            condEmit, zlibGuard, getBinDir, getOption, hme, hmeb, hwz,
            hsd, hss, hmx, hms, hmxb, hzb, hzs, hzbb, hos', hwz', hzs']
    | true =>
      obtain ⟨psd, rsd, hsdb⟩ := List.exists_cons_of_ne_nil (hsdok rfl)
      cases ms with
      | false =>
        constructor <;>
          simp [generateTrace, andStep, emitMach, emitShared, emitZlib,
            condEmit, zlibGuard, getBinDir, getOption, hme, hmeb, hwz,
            hsd, hss, hsdb, hmx, hms, hzb, hzs, hzbb, hos', hwz', hzs']
      | true =>
        obtain ⟨pmx, rmx, hmxb⟩ := List.exists_cons_of_ne_nil (hmxok rfl)
        constructor <;>
          simp [generateTrace, andStep, emitMach, emitShared, emitZlib,
            condEmit, zlibGuard, getBinDir, getOption, hme, hmeb, hwz,
            hsd, hss, hsdb, hmx, hms, hmxb, hzb, hzs, hzbb, hos', hwz',
            hzs']

/-- Instantiation of `would_emit_empty_bindirs_index_error`: a shared
sdl with an empty binary-directory list fails with the sdl index error
and no `sdlBinDir` entry. -/
theorem would_emit_empty_bindirs_index_error_witness :
    (generateTrace "Linux"
        [("mach_emu", ⟨[['/', 'm']], [("with_zlib", true)]⟩),
         ("sdl", ⟨[], [("shared", true)]⟩),
         ("sdl_mixer", ⟨[['/', 'x']], [("shared", true)]⟩),
         ("zlib", ⟨[['/', 'z']], [("shared", true)]⟩)]).2 =
      some (ConanError.indexError "sdl") ∧
      "sdlBinDir" ∉ (generateTrace "Linux"
        [("mach_emu", ⟨[['/', 'm']], [("with_zlib", true)]⟩),
         ("sdl", ⟨[], [("shared", true)]⟩),
         ("sdl_mixer", ⟨[['/', 'x']], [("shared", true)]⟩),
         ("zlib", ⟨[['/', 'z']], [("shared", true)]⟩)]).1.map Prod.fst :=
  (would_emit_empty_bindirs_index_error "Linux"
    [("mach_emu", ⟨[['/', 'm']], [("with_zlib", true)]⟩),
     ("sdl", ⟨[], [("shared", true)]⟩),
     ("sdl_mixer", ⟨[['/', 'x']], [("shared", true)]⟩),
     ("zlib", ⟨[['/', 'z']], [("shared", true)]⟩)]
    _ _ _ _ true true true true
    rfl rfl rfl rfl rfl rfl rfl rfl).2.1 (by decide) rfl rfl

/-- `getBinDir` depends only on the bindir lists of the mapping. -/
theorem getBinDir_congr (d₁ d₂ : DepMap) (n : String)
    (h : (lookupDep d₁ n).map DepMetadata.bindirs
       = (lookupDep d₂ n).map DepMetadata.bindirs) :
    getBinDir d₁ n = getBinDir d₂ n := by
  cases h1 : lookupDep d₁ n with
  | none =>
    cases h2 : lookupDep d₂ n with
    | none => simp [getBinDir, h1, h2]
    | some m2 => rw [h1, h2] at h; simp at h
  | some m1 =>
    cases h2 : lookupDep d₂ n with
    | none => rw [h1, h2] at h; simp at h
    | some m2 =>
      have hb : m1.bindirs = m2.bindirs := by
        rw [h1, h2] at h
        simpa using h
      simp [getBinDir, h1, h2, hb]

/-- `getOption` depends only on the looked-up metadata. -/
theorem getOption_congr (d₁ d₂ : DepMap) (dep opt : String)
    (h : lookupDep d₁ dep = lookupDep d₂ dep) :
    getOption d₁ dep opt = getOption d₂ dep opt := by
  simp [getOption, h]

/-- `condEmit` depends only on the dependency's bindir result. -/
theorem condEmit_congr (d₁ d₂ : DepMap) (dep key : String)
    (c : Bool) (vars : Vars)
    (h : getBinDir d₁ dep = getBinDir d₂ dep) :
    condEmit d₁ dep key c vars = condEmit d₂ dep key c vars := by
  simp [condEmit, h]

/-- `emitShared` depends only on the dependency's own metadata entry. -/
theorem emitShared_congr (d₁ d₂ : DepMap) (dep key : String) (vars : Vars)
    (h : lookupDep d₁ dep = lookupDep d₂ dep) :
    emitShared d₁ dep key vars = emitShared d₂ dep key vars := by
  have h1 := getOption_congr d₁ d₂ dep "shared" h
  have h2 : getBinDir d₁ dep = getBinDir d₂ dep := by
    simp [getBinDir, h]
  have h3 : ∀ c vs, condEmit d₁ dep key c vs = condEmit d₂ dep key c vs :=
    fun c vs => condEmit_congr d₁ d₂ dep key c vs h2
  simp only [emitShared, h1, h3]

/-- Claim C10: on a non-Windows platform the guard short-circuits, so
neither the emulation core's `with_zlib` option nor any zlib metadata is
ever read: two mappings agreeing on the emulation core's bindirs and on
the sdl and sdl_mixer entries — but arbitrary in their zlib entry and in
every option of the emulation core — yield identical traces, so zlib's
absence cannot fail and its values cannot influence the output. -/
theorem non_windows_ignores_zlib
    (os : String) (d₁ d₂ : DepMap)
    (hos : os ≠ "Windows")
    (hme : (lookupDep d₁ "mach_emu").map DepMetadata.bindirs
         = (lookupDep d₂ "mach_emu").map DepMetadata.bindirs)
    (hsd : lookupDep d₁ "sdl" = lookupDep d₂ "sdl")
    (hmx : lookupDep d₁ "sdl_mixer" = lookupDep d₂ "sdl_mixer") :
    generateTrace os d₁ = generateTrace os d₂ := by
  have h1 : emitMach d₁ = emitMach d₂ := by
    simp [emitMach, getBinDir_congr d₁ d₂ "mach_emu" hme]
  have h2 : emitShared d₁ "sdl" "sdlBinDir" = emitShared d₂ "sdl" "sdlBinDir" :=
    funext fun vars => emitShared_congr d₁ d₂ "sdl" "sdlBinDir" vars hsd
  have h3 : emitShared d₁ "sdl_mixer" "sdlMixerBinDir"
      = emitShared d₂ "sdl_mixer" "sdlMixerBinDir" :=
    funext fun vars => emitShared_congr d₁ d₂ "sdl_mixer" "sdlMixerBinDir" vars hmx
  have h4 : emitZlib os d₁ = emitZlib os d₂ := by
    funext vars
    have hg1 : zlibGuard os d₁ = Except.ok false := by simp [zlibGuard, hos]
    have hg2 : zlibGuard os d₂ = Except.ok false := by simp [zlibGuard, hos]
    simp [emitZlib, hg1, hg2, condEmit]
  unfold generateTrace
  rw [h1, h2, h3, h4]

/-- Instantiation of `non_windows_ignores_zlib`: on Linux, dropping the
zlib entry and the `with_zlib` option entirely changes nothing. -/
theorem non_windows_ignores_zlib_witness :
    generateTrace "Linux" wfDeps =
      generateTrace "Linux"
        [("mach_emu", ⟨[['/', 'm']], []⟩),
         ("sdl", ⟨[['/', 's']], [("shared", true)]⟩),
         ("sdl_mixer", ⟨[['/', 'x']], [("shared", true)]⟩)] :=
  non_windows_ignores_zlib "Linux" wfDeps
    [("mach_emu", ⟨[['/', 'm']], []⟩),
     ("sdl", ⟨[['/', 's']], [("shared", true)]⟩),
     ("sdl_mixer", ⟨[['/', 'x']], [("shared", true)]⟩)]
    (by decide) rfl rfl rfl

end SpaceInvaders
